import Mathlib

/-!
Shallow embedding of the rr_data repository (two Node.js batch pipelines):

* `src/scripts/generate_stats.js` — loads base player data (archive dir
  preferred over the persisted players dir), folds the live feed rows into
  per-player `vr_history` with a duplicate-timestamp guard, then per player
  sorts, prunes to 30 days, computes rolling window stats, merges the
  discord-linkage cache and persists one JSON file per player.
* `src/unnamed/part_000` — the archival backfill: folds historical
  snapshots into per-player `vr_history` with the same push formula but
  WITHOUT a duplicate-timestamp guard, then writes one file per player.

JavaScript values feeding `parseInt(p.ev || p.vr || 0)` are modelled by
`JSVal` (absent/null collapse to `undef`); `parseInt`'s NaN result is
modelled as `none : Option Int`, and arithmetic on possibly-NaN numbers by
`jsSub`.  Date strings are kept abstract: the stats engine takes the
`new Date(…).getTime()` parse as an explicit `parse : String → Int`
parameter (milliseconds since epoch).  The JS `Map` is embedded as an
insertion-ordered association list with JS `Map.set` semantics.
-/

namespace RRData

/-- A JavaScript value as it can appear in the `ev` / `vr` fields of a raw
player record: absent (or null), an integer number, or a string. -/
inductive JSVal where
  | undef : JSVal
  | num : Int → JSVal
  | str : String → JSVal
deriving DecidableEq, Repr

/-- JS truthiness on the modelled values: `undefined`/`null` are falsy,
a number is truthy iff nonzero, a string iff nonempty. -/
def truthy : JSVal → Bool
  | .undef => false
  | .num n => n != 0
  | .str s => s != ""

/-- The JS `||` operator on modelled values. -/
def jsOr (a b : JSVal) : JSVal := if truthy a then a else b

/-- Decimal value of a digit list (most significant first). -/
def digitsVal (ds : List Char) : Int :=
  ds.foldl (fun acc c => acc * 10 + ((c.toNat - '0'.toNat : Nat) : Int)) 0

/-- JS `parseInt` on a string (decimal case): skip leading whitespace, read
an optional sign and then leading decimal digits; `none` models the NaN
result when no digits are found. -/
def parseIntStr (s : String) : Option Int :=
  let cs := s.toList.dropWhile (fun c => c == ' ' || c == '\t' || c == '\n' || c == '\r')
  let signed : Int × List Char :=
    match cs with
    | '-' :: rest => (-1, rest)
    | '+' :: rest => (1, rest)
    | _ => (1, cs)
  let ds := signed.2.takeWhile Char.isDigit
  if ds.isEmpty then none else some (signed.1 * digitsVal ds)

/-- JS `parseInt` on a modelled value; an integer number round-trips through
its decimal string, so it parses to itself. `none` models NaN. -/
def parseIntJS : JSVal → Option Int
  | .undef => none
  | .num n => some n
  | .str s => parseIntStr s

/-- JS subtraction on possibly-NaN numbers: NaN propagates. -/
def jsSub : Option Int → Option Int → Option Int
  | some a, some b => some (a - b)
  | _, _ => none

/-- `parseInt(p.ev || p.vr || 0)` — the rating read from a raw record
(`generate_stats.js` line 86 and `part_000` line 87). -/
def currentVRof (ev vr : JSVal) : Option Int :=
  parseIntJS (jsOr ev (jsOr vr (.num 0)))

/-- One `vr_history` entry: `{date, vrChange, totalVR}`. -/
structure HistEntry where
  date : String
  vrChange : Option Int
  totalVR : Option Int
deriving DecidableEq, Repr

/-- The derived `vrStats` object. -/
structure VRStats where
  last24Hours : Option Int
  lastWeek : Option Int
  lastMonth : Option Int
deriving DecidableEq, Repr

/-- A persisted player record. `discord` and `vrStats` are `Option`s because
records created by the archival pipeline carry neither field. -/
structure PlayerRecord where
  name : String
  fc : String
  vr_history : List HistEntry
  discord : Option String
  vrStats : Option VRStats
deriving DecidableEq, Repr

/-- The `playerMap` JS `Map`, as an insertion-ordered association list. -/
abbrev PlayerMap := List (String × PlayerRecord)

/-- `playerMap.get(k)` (also used to model `playerMap.has`). -/
def mapFind (m : PlayerMap) (k : String) : Option PlayerRecord :=
  (m.find? (fun kv => kv.1 == k)).map (fun kv => kv.2)

/-- `playerMap.set(k, v)`: replace the first binding of `k` in place, or
append a new binding at the end — JS `Map` insertion-order semantics. -/
def mapSet (m : PlayerMap) (k : String) (v : PlayerRecord) : PlayerMap :=
  match m with
  | [] => [(k, v)]
  | kv :: rest => if kv.1 == k then (k, v) :: rest else kv :: mapSet rest k v

/-- `a || b` for the optional strings (`p.name || 'Unknown'`,
`p.name || entry.name`): an absent or empty string falls through. -/
def strOr (a : Option String) (b : String) : String :=
  match a with
  | some s => if s == "" then b else s
  | none => b

/-- A raw player record inside a snapshot: `fc` and `name` are strings when
present, the rating fields are arbitrary JS values. -/
structure RawPlayer where
  fc : Option String
  name : Option String
  ev : JSVal
  vr : JSVal
deriving DecidableEq, Repr

/-- The entry pushed onto a history: `lastTotal` is the `totalVR` of the
chronologically last existing entry, or `currentVR` itself when the history
is empty (`generate_stats.js` lines 91-96, `part_000` lines 88-96). -/
def pushEntry (d : String) (currentVR : Option Int) (l : List HistEntry) : HistEntry :=
  let lastTotal :=
    match l.getLast? with
    | some h => h.totalVR
    | none => currentVR
  ⟨d, jsSub currentVR lastTotal, currentVR⟩

/-- The record created on first encounter of an `fc` in the live pipeline
(`generate_stats.js` lines 74-81). -/
def freshRecordLive (p : RawPlayer) (fc : String) : PlayerRecord :=
  ⟨strOr p.name "Unknown", fc, [], some "unknown", none⟩

/-- `if (!playerMap.has(p.fc)) playerMap.set(p.fc, {...})` — live version. -/
def ensurePlayerLive (m : PlayerMap) (fc : String) (p : RawPlayer) : PlayerMap :=
  if (mapFind m fc).isSome then m else mapSet m fc (freshRecordLive p fc)

/-- The in-place mutation of an existing record by one live raw player
(`generate_stats.js` lines 84-97): update the name, then append a history
entry unless an entry with this exact `rowDate` string already exists
(the dedup guard at lines 89-90). -/
def updateRecordLive (rowDate : String) (p : RawPlayer) (e : PlayerRecord) : PlayerRecord :=
  if e.vr_history.any (fun h => h.date == rowDate) then
    { e with name := strOr p.name e.name }
  else
    { e with
      name := strOr p.name e.name
      vr_history := e.vr_history ++ [pushEntry rowDate (currentVRof p.ev p.vr) e.vr_history] }

/-- One player of one live-feed row (`generate_stats.js` lines 71-98):
skip records with falsy `fc`, create the record on first encounter, then
mutate it. -/
def processPlayerLive (rowDate : String) (m : PlayerMap) (p : RawPlayer) : PlayerMap :=
  match p.fc with
  | none => m
  | some fc =>
    if fc = "" then m
    else
      match mapFind (ensurePlayerLive m fc p) fc with
      | none => ensurePlayerLive m fc p
      | some e => mapSet (ensurePlayerLive m fc p) fc (updateRecordLive rowDate p e)

/-- One snapshot (one live row after normalization): fold its players. -/
def processSnapshotLive (m : PlayerMap) (rowDate : String) (ps : List RawPlayer) : PlayerMap :=
  ps.foldl (processPlayerLive rowDate) m

/-- The whole live fold over chronologically sorted rows. -/
def processRowsLive (m : PlayerMap) (rows : List (String × List RawPlayer)) : PlayerMap :=
  rows.foldl (fun acc r => processSnapshotLive acc r.1 r.2) m

/-- The record created on first encounter of an `fc` in the archival
pipeline (`part_000` lines 76-82): no `discord` field. -/
def freshRecordArch (p : RawPlayer) (fc : String) : PlayerRecord :=
  ⟨strOr p.name "Unknown", fc, [], none, none⟩

/-- `if (!playerMap.has(p.fc)) playerMap.set(p.fc, {...})` — archival. -/
def ensurePlayerArch (m : PlayerMap) (fc : String) (p : RawPlayer) : PlayerMap :=
  if (mapFind m fc).isSome then m else mapSet m fc (freshRecordArch p fc)

/-- The in-place mutation of an existing record by one archival raw player
(`part_000` lines 84-96): update the name and push unconditionally —
"Push every single update (high resolution)" — there is NO
duplicate-timestamp guard here. -/
def updateRecordArch (date : String) (p : RawPlayer) (e : PlayerRecord) : PlayerRecord :=
  { e with
    name := strOr p.name e.name
    vr_history := e.vr_history ++ [pushEntry date (currentVRof p.ev p.vr) e.vr_history] }

/-- One player of one archival snapshot (`part_000` lines 73-97). -/
def processPlayerArch (date : String) (m : PlayerMap) (p : RawPlayer) : PlayerMap :=
  match p.fc with
  | none => m
  | some fc =>
    if fc = "" then m
    else
      match mapFind (ensurePlayerArch m fc p) fc with
      | none => ensurePlayerArch m fc p
      | some e => mapSet (ensurePlayerArch m fc p) fc (updateRecordArch date p e)

/-- One archival snapshot: fold its players. -/
def processSnapshotArch (m : PlayerMap) (date : String) (ps : List RawPlayer) : PlayerMap :=
  ps.foldl (processPlayerArch date) m

/-- The archival fold over chronologically sorted snapshot dates
(`part_000` lines 70-98). -/
def processRowsArch (m : PlayerMap) (rows : List (String × List RawPlayer)) : PlayerMap :=
  rows.foldl (fun acc r => processSnapshotArch acc r.1 r.2) m

/-- `24 * 60 * 60 * 1000` ms. -/
def oneDay : Int := 24 * 60 * 60 * 1000

/-- `7 * oneDay`. -/
def sevenDays : Int := 7 * oneDay

/-- `30 * oneDay`. -/
def thirtyDays : Int := 30 * oneDay

/-- Stable insertion keyed by the parsed date — one step of the stable sort
`vr_history.sort((a, b) => new Date(a.date) - new Date(b.date))`. -/
def insertByDate (parse : String → Int) (x : HistEntry) : List HistEntry → List HistEntry
  | [] => [x]
  | y :: ys => if parse x.date < parse y.date then x :: y :: ys else y :: insertByDate parse x ys

/-- Stable sort of a history by parsed date ascending. -/
def sortHist (parse : String → Int) : List HistEntry → List HistEntry
  | [] => []
  | x :: xs => insertByDate parse x (sortHist parse xs)

/-- Placeholder entry for the (unreachable) empty-list lookups. -/
def dummyEntry : HistEntry := ⟨"", none, none⟩

/-- `getVRAt(msAgo)` (`generate_stats.js` lines 118-122): the `totalVR` of
the first history entry whose parsed date is `≥ now - msAgo`, else the
`totalVR` of `vr_history[0]`. -/
def getVRAt (parse : String → Int) (now : Int) (hist : List HistEntry) (msAgo : Int) : Option Int :=
  let targetTime := now - msAgo
  match hist.find? (fun h => targetTime ≤ parse h.date) with
  | some e => e.totalVR
  | none => (hist.headD dummyEntry).totalVR

/-- The discord-linkage merge (`generate_stats.js` lines 130-142):
default a falsy stored value to `"unknown"`, then a falsy cache value
leaves it alone, `"not_linked"` is adopted only over `"unknown"` or
`"not_linked"`, and any other cache value is adopted unconditionally. -/
def mergeDiscord (stored : Option String) (cacheProfile : Option String) : String :=
  let d :=
    match stored with
    | none => "unknown"
    | some s => if s = "" then "unknown" else s
  match cacheProfile with
  | none => d
  | some c =>
    if c = "" then d
    else if c = "not_linked" then
      if d = "unknown" ∨ d = "not_linked" then "not_linked" else d
    else c

/-- `fc.replace(/[^a-zA-Z0-9-]/g, '_')`: keep ASCII letters, digits and
hyphen, replace everything else with an underscore. -/
def safeFC (fc : String) : String :=
  String.mk (fc.toList.map (fun c => if c.isAlpha || c.isDigit || c = '-' then c else '_'))

/-- `vr_history` after the defensive re-sort and the 30-day prune
(`generate_stats.js` lines 110-112): keep an entry iff
`now - new Date(h.date) <= thirtyDays`. -/
def prunedHist (parse : String → Int) (now : Int) (l : List HistEntry) : List HistEntry :=
  (sortHist parse l).filter (fun h => now - parse h.date ≤ thirtyDays)

/-- The `vrStats` object computed from a (nonempty) pruned history
(`generate_stats.js` lines 116-128): each field is the latest `totalVR`
minus `getVRAt` of the window. -/
def statsOf (parse : String → Int) (now : Int) (pruned : List HistEntry) : VRStats :=
  ⟨jsSub (pruned.getLastD dummyEntry).totalVR (getVRAt parse now pruned oneDay),
   jsSub (pruned.getLastD dummyEntry).totalVR (getVRAt parse now pruned sevenDays),
   jsSub (pruned.getLastD dummyEntry).totalVR (getVRAt parse now pruned thirtyDays)⟩

/-- The record a player ends the run with when its pruned history is
nonempty: pruned history, freshly computed `vrStats`, merged `discord`. -/
def finalRecord (parse : String → Int) (cache : String → Option String) (now : Int)
    (fc : String) (data : PlayerRecord) : PlayerRecord :=
  { data with
    vr_history := prunedHist parse now data.vr_history
    vrStats := some (statsOf parse now (prunedHist parse now data.vr_history))
    discord := some (mergeDiscord data.discord (cache fc)) }

/-- The per-player body of the finalize loop (`generate_stats.js` lines
108-147): sort the history, prune entries older than 30 days, and — only
when the pruned history is nonempty — compute `vrStats`, merge the discord
cache and emit a write of the record to `safeFC fc + ".json"`.  When the
pruned history is empty the loop `continue`s: no stats, no discord merge,
and no write.  Returns the mutated record and the optional write. -/
def statsStep (parse : String → Int) (cache : String → Option String) (now : Int)
    (fc : String) (data : PlayerRecord) : PlayerRecord × Option (String × PlayerRecord) :=
  if (prunedHist parse now data.vr_history).isEmpty then
    ({ data with vr_history := prunedHist parse now data.vr_history }, none)
  else
    (finalRecord parse cache now fc data, some (safeFC fc, finalRecord parse cache now fc data))

/-- The whole finalize loop: mutate every record of the map in place and
collect the file writes in iteration order. -/
def runStats (parse : String → Int) (cache : String → Option String) (now : Int)
    (m : PlayerMap) : PlayerMap × List (String × PlayerRecord) :=
  (m.map (fun kv => (kv.1, (statsStep parse cache now kv.1 kv.2).1)),
   m.filterMap (fun kv => (statsStep parse cache now kv.1 kv.2).2))

/-- The content a file name ends up holding after a sequence of writes:
the last write to that name wins. -/
def lastWrite (ws : List (String × PlayerRecord)) (fname : String) : Option PlayerRecord :=
  (ws.reverse.find? (fun w => w.1 == fname)).map (fun w => w.2)

/-- Base-data loading (`generate_stats.js` lines 14-28): when the archive
directory exists it is read exclusively, otherwise the persisted players
directory is read; each file's record is keyed by its `fc`. -/
def loadBase (hasArchive : Bool) (archiveFiles playersFiles : List PlayerRecord) : PlayerMap :=
  (if hasArchive then archiveFiles else playersFiles).foldl (fun m d => mapSet m d.fc d) []

/-- The live pipeline end to end: load base data, fold the live rows,
finalize and persist (`generate_stats.js` `run`). -/
def fullRunLive (hasArchive : Bool) (archiveFiles playersFiles : List PlayerRecord)
    (rows : List (String × List RawPlayer)) (parse : String → Int)
    (cache : String → Option String) (now : Int) :
    PlayerMap × List (String × PlayerRecord) :=
  runStats parse cache now (processRowsLive (loadBase hasArchive archiveFiles playersFiles) rows)

/-! ### Association-list lemmas for the embedded JS `Map` -/

theorem mapFind_cons (kv : String × PlayerRecord) (l : PlayerMap) (k : String) :
    mapFind (kv :: l) k = if kv.1 = k then some kv.2 else mapFind l k := by
  by_cases h : kv.1 = k <;> simp [mapFind, List.find?_cons, h]

theorem mapFind_mapSet_self (m : PlayerMap) (k : String) (v : PlayerRecord) :
    mapFind (mapSet m k v) k = some v := by
  induction m with
  | nil => simp [mapSet, mapFind]
  | cons kv rest ih =>
    by_cases h : kv.1 = k
    · simp [mapSet, h, mapFind_cons]
    · simp only [mapSet, h, beq_iff_eq, if_false, mapFind_cons, ih]

theorem mapFind_mapSet_ne (m : PlayerMap) (k k' : String) (v : PlayerRecord)
    (h : k' ≠ k) : mapFind (mapSet m k v) k' = mapFind m k' := by
  induction m with
  | nil => simp [mapSet, mapFind_cons, Ne.symm h, mapFind]
  | cons kv rest ih =>
    by_cases hk : kv.1 = k
    · subst hk
      simp only [mapSet, beq_self_eq_true, if_true]
      rw [mapFind_cons, mapFind_cons]
      simp [Ne.symm h]
    · simp only [mapSet, beq_iff_eq, hk, if_false]
      rw [mapFind_cons, mapFind_cons, ih]

theorem mem_mapSet {m : PlayerMap} {k : String} {v : PlayerRecord}
    {kv' : String × PlayerRecord} (h : kv' ∈ mapSet m k v) : kv' ∈ m ∨ kv' = (k, v) := by
  induction m with
  | nil => simpa [mapSet] using h
  | cons kv rest ih =>
    by_cases hk : kv.1 = k
    · simp only [mapSet, beq_iff_eq, hk, if_true, List.mem_cons] at h
      rcases h with h | h
      · right; exact h
      · left; exact List.mem_cons_of_mem _ h
    · simp only [mapSet, beq_iff_eq, hk, if_false, List.mem_cons] at h
      rcases h with h | h
      · left; simp [h]
      · rcases ih h with h' | h'
        · left; exact List.mem_cons_of_mem _ h'
        · right; exact h'

theorem mapFind_some_mem {m : PlayerMap} {k : String} {e : PlayerRecord}
    (h : mapFind m k = some e) : ∃ kv ∈ m, kv.2 = e := by
  unfold mapFind at h
  rcases hf : m.find? (fun kv => kv.1 == k) with _ | kv
  · rw [hf] at h; simp at h
  · rw [hf] at h
    refine ⟨kv, List.mem_of_find?_eq_some hf, ?_⟩
    simpa using h

/-! ### Invariants of the reconstruction folds -/

/-- The head entry of a history was pushed onto an empty history, so its
`vrChange` is `jsSub` of its own `totalVR` with itself (`some 0` when the
rating parsed, NaN when it did not). -/
def headZero (l : List HistEntry) : Prop :=
  ∀ e, l.head? = some e → e.vrChange = jsSub e.totalVR e.totalVR

/-- Every non-first entry's `vrChange` is the `jsSub` difference of its own
`totalVR` and its predecessor's. -/
def deltaChain (l : List HistEntry) : Prop :=
  l.Chain' (fun a b => b.vrChange = jsSub b.totalVR a.totalVR)

/-- The conjunction of the two history invariants. -/
def goodHist (l : List HistEntry) : Prop := headZero l ∧ deltaChain l

theorem goodHist_nil : goodHist [] :=
  ⟨fun e h => by simp at h, List.chain'_nil⟩

theorem goodHist_push (l : List HistEntry) (d : String) (cv : Option Int)
    (h : goodHist l) : goodHist (l ++ [pushEntry d cv l]) := by
  constructor
  · intro e he
    cases l with
    | nil =>
      simp only [List.nil_append, List.head?_cons, Option.some.injEq] at he
      rw [← he]
      rfl
    | cons a t =>
      simp only [List.cons_append, List.head?_cons, Option.some.injEq] at he
      exact h.1 e (by rw [List.head?_cons, he])
  · rw [deltaChain, List.chain'_append]
    refine ⟨h.2, List.chain'_singleton _, ?_⟩
    intro a ha y hy
    simp only [List.head?_cons, Option.mem_def, Option.some.injEq] at hy
    rw [Option.mem_def] at ha
    rw [← hy]
    simp [pushEntry, ha]

/-- The per-map invariant: every record's history is `goodHist`. -/
def goodMap (m : PlayerMap) : Prop := ∀ kv ∈ m, goodHist kv.2.vr_history

theorem goodMap_nil : goodMap [] := fun kv h => absurd h (List.not_mem_nil kv)

theorem goodMap_mapSet {m : PlayerMap} {k : String} {v : PlayerRecord}
    (hm : goodMap m) (hv : goodHist v.vr_history) : goodMap (mapSet m k v) := by
  intro kv hkv
  rcases mem_mapSet hkv with h | h
  · exact hm kv h
  · rw [h]; exact hv

theorem goodMap_ensureLive {m : PlayerMap} (fc : String) (p : RawPlayer)
    (hm : goodMap m) : goodMap (ensurePlayerLive m fc p) := by
  unfold ensurePlayerLive
  split
  · exact hm
  · exact goodMap_mapSet hm goodHist_nil

theorem goodMap_ensureArch {m : PlayerMap} (fc : String) (p : RawPlayer)
    (hm : goodMap m) : goodMap (ensurePlayerArch m fc p) := by
  unfold ensurePlayerArch
  split
  · exact hm
  · exact goodMap_mapSet hm goodHist_nil

theorem goodHist_updateLive {e : PlayerRecord} (rowDate : String) (p : RawPlayer)
    (h : goodHist e.vr_history) : goodHist (updateRecordLive rowDate p e).vr_history := by
  unfold updateRecordLive
  split
  · exact h
  · exact goodHist_push _ _ _ h

theorem goodHist_updateArch {e : PlayerRecord} (date : String) (p : RawPlayer)
    (h : goodHist e.vr_history) : goodHist (updateRecordArch date p e).vr_history :=
  goodHist_push _ _ _ h

theorem goodMap_processPlayerLive {m : PlayerMap} (rowDate : String) (p : RawPlayer)
    (hm : goodMap m) : goodMap (processPlayerLive rowDate m p) := by
  rcases hp : p.fc with _ | fc
  · simpa [processPlayerLive, hp] using hm
  · by_cases hfc : fc = ""
    · simpa [processPlayerLive, hp, hfc] using hm
    · have h1 : goodMap (ensurePlayerLive m fc p) := goodMap_ensureLive fc p hm
      rcases hfind : mapFind (ensurePlayerLive m fc p) fc with _ | e
      · simpa [processPlayerLive, hp, hfc, hfind] using h1
      · have he : goodHist e.vr_history := by
          rcases mapFind_some_mem hfind with ⟨kv, hkv, hkve⟩
          rw [← hkve]; exact h1 kv hkv
        simpa [processPlayerLive, hp, hfc, hfind] using
          goodMap_mapSet h1 (goodHist_updateLive rowDate p he)

theorem goodMap_processPlayerArch {m : PlayerMap} (date : String) (p : RawPlayer)
    (hm : goodMap m) : goodMap (processPlayerArch date m p) := by
  rcases hp : p.fc with _ | fc
  · simpa [processPlayerArch, hp] using hm
  · by_cases hfc : fc = ""
    · simpa [processPlayerArch, hp, hfc] using hm
    · have h1 : goodMap (ensurePlayerArch m fc p) := goodMap_ensureArch fc p hm
      rcases hfind : mapFind (ensurePlayerArch m fc p) fc with _ | e
      · simpa [processPlayerArch, hp, hfc, hfind] using h1
      · have he : goodHist e.vr_history := by
          rcases mapFind_some_mem hfind with ⟨kv, hkv, hkve⟩
          rw [← hkve]; exact h1 kv hkv
        simpa [processPlayerArch, hp, hfc, hfind] using
          goodMap_mapSet h1 (goodHist_updateArch date p he)

theorem goodMap_processSnapshotLive (rowDate : String) (ps : List RawPlayer)
    {m : PlayerMap} (hm : goodMap m) : goodMap (processSnapshotLive m rowDate ps) := by
  induction ps generalizing m with
  | nil => exact hm
  | cons p rest ih => exact ih (goodMap_processPlayerLive rowDate p hm)

theorem goodMap_processSnapshotArch (date : String) (ps : List RawPlayer)
    {m : PlayerMap} (hm : goodMap m) : goodMap (processSnapshotArch m date ps) := by
  induction ps generalizing m with
  | nil => exact hm
  | cons p rest ih => exact ih (goodMap_processPlayerArch date p hm)

theorem goodMap_processRowsLive (rows : List (String × List RawPlayer))
    {m : PlayerMap} (hm : goodMap m) : goodMap (processRowsLive m rows) := by
  induction rows generalizing m with
  | nil => exact hm
  | cons r rest ih => exact ih (goodMap_processSnapshotLive r.1 r.2 hm)

theorem goodMap_processRowsArch (rows : List (String × List RawPlayer))
    {m : PlayerMap} (hm : goodMap m) : goodMap (processRowsArch m rows) := by
  induction rows generalizing m with
  | nil => exact hm
  | cons r rest ih => exact ih (goodMap_processSnapshotArch r.1 r.2 hm)

theorem goodHist_of_mapFind {m : PlayerMap} {fc : String} {rec : PlayerRecord}
    (hm : goodMap m) (h : mapFind m fc = some rec) : goodHist rec.vr_history := by
  rcases mapFind_some_mem h with ⟨kv, hkv, hkve⟩
  rw [← hkve]; exact hm kv hkv

/-! ### Shared concrete inputs used by witnesses and counterexamples -/

/-- A concrete date parse for examples: the leading integer of the string
(milliseconds), `0` when absent. -/
def exParse (s : String) : Int := (parseIntStr s).getD 0

/-- A concrete empty discord cache for examples. -/
def exCache : String → Option String := fun _ => none

/-- The spec's window-stat scenario: totals `[0, 50, 120]` at days
`[-10, -5, 0]` relative to `now = 0` (dates in milliseconds). -/
def exC5 : PlayerRecord :=
  ⟨"P", "C",
   [⟨"-864000000", some 0, some 0⟩, ⟨"-432000000", some 50, some 50⟩, ⟨"0", some 70, some 120⟩],
   some "unknown", none⟩

/-- A player whose only history entry (at time 0) is just over 30 days old
when `now = thirtyDays + 1`. -/
def exOld : PlayerRecord := ⟨"Old", "O", [⟨"0", some 5, some 5⟩], some "unknown", none⟩

/-! ### Claims -/

/-- Concrete rows: player `"A"` observed at dates `"1"` and `"2"`. -/
def exRows : List (String × List RawPlayer) :=
  [("1", [⟨some "A", some "Al", JSVal.num 100, JSVal.undef⟩]),
   ("2", [⟨some "A", some "Al", JSVal.num 150, JSVal.undef⟩])]

/-- The record the live fold builds for `"A"` from `exRows`. -/
def exRecLive : PlayerRecord :=
  ⟨"Al", "A", [⟨"1", some 0, some 100⟩, ⟨"2", some 50, some 150⟩], some "unknown", none⟩

/-- First of two same-`fc` raw players inside one archival snapshot. -/
def exDupA : RawPlayer := ⟨some "A", some "N", JSVal.num 10, JSVal.undef⟩

/-- Second of two same-`fc` raw players inside one archival snapshot. -/
def exDupB : RawPlayer := ⟨some "A", some "N", JSVal.num 20, JSVal.undef⟩

/-- C1 counterexample: the archival backfill fold has no dedup guard, so the
algorithm is not shared verbatim.  Processing one archival snapshot whose
player list contains `fc = "A"` twice at timestamp `"t"`: after the first
record an entry with date `"t"` already exists, yet processing the second
record appends another entry with the same date — the player ends with two
entries sharing the date string `"t"`. -/
theorem C1_counterexample :
    (mapFind (processPlayerArch "t" [] exDupA) "A").map
        (fun r => r.vr_history.any (fun h => h.date == "t")) = some true ∧
    (mapFind (processSnapshotArch [] "t" [exDupA, exDupB]) "A").map
        (fun r => r.vr_history.map HistEntry.date) = some ["t", "t"] :=
  ⟨by decide, by decide⟩

/-- C1 (amended): the dedup guard holds for the live-feed fold only: if an
entry with the incoming row's exact timestamp string already exists in a
player's `vr_history`, processing that player appends nothing — every
history in the map is left unchanged.  The archival backfill fold has no
such guard and appends unconditionally. -/
theorem C1_dedup_live (m : PlayerMap) (rowDate : String) (p : RawPlayer)
    (fc : String) (rec : PlayerRecord) (hfc : p.fc = some fc) (hne : fc ≠ "")
    (hfind : mapFind m fc = some rec)
    (hdup : rec.vr_history.any (fun h => h.date == rowDate) = true) :
    ∀ k, (mapFind (processPlayerLive rowDate m p) k).map PlayerRecord.vr_history =
      (mapFind m k).map PlayerRecord.vr_history := by
  intro k
  have hm1 : ensurePlayerLive m fc p = m := by
    unfold ensurePlayerLive
    rw [hfind]
    rfl
  simp only [processPlayerLive, hfc]
  rw [if_neg hne, hm1, hfind]
  by_cases hk : k = fc
  · subst hk
    rw [mapFind_mapSet_self, hfind]
    simp [updateRecordLive, hdup]
  · rw [mapFind_mapSet_ne _ _ _ _ hk]

/-- Witness for C1: reprocessing player `"A"` at the already-present date
`"1"` with a different rating leaves every history unchanged. -/
theorem C1_dedup_live_witness :
    mapFind [("A", exRecLive)] "A" = some exRecLive ∧
    exRecLive.vr_history.any (fun h => h.date == "1") = true ∧
    (mapFind (processPlayerLive "1" [("A", exRecLive)]
        ⟨some "A", some "Al", JSVal.num 999, JSVal.undef⟩) "A").map PlayerRecord.vr_history =
      (mapFind [("A", exRecLive)] "A").map PlayerRecord.vr_history :=
  ⟨by decide, by decide,
    C1_dedup_live [("A", exRecLive)] "1" ⟨some "A", some "Al", JSVal.num 999, JSVal.undef⟩
      "A" exRecLive rfl (by decide) (by decide) (by decide) "A"⟩

/-- C2 counterexample: reconstructing from an empty base with one snapshot
carrying rating 100, the first history entry has `vrChange = 0` and
`totalVR = 100` — `vrChange == totalVR` fails.  (`prevTotal` is indeed
`currentVR` itself when no prior entry exists, which makes the first delta
zero, not the claimed `totalVR`.) -/
theorem C2_counterexample :
    ((mapFind (processRowsLive []
        [("t", [⟨some "A", some "N", JSVal.num 100, JSVal.undef⟩])]) "A").bind
      (fun r => r.vr_history.head?)).map (fun e => (e.vrChange, e.totalVR)) =
      some (some 0, some 100) ∧
    (some 0 : Option Int) ≠ some 100 :=
  ⟨by decide, by decide⟩

/-- C2 (amended): for every player record produced by either reconstruction
fold from an empty base, the first `vr_history` entry satisfies
`vrChange = totalVR - totalVR` — i.e. `vrChange = 0` whenever the rating
parsed to a number (and NaN otherwise) — because `prevTotal` is taken to be
`currentVR` itself when no prior entry exists. -/
theorem C2_first_entry_zero (rows : List (String × List RawPlayer)) (fc : String)
    (rec : PlayerRecord)
    (h : mapFind (processRowsLive [] rows) fc = some rec ∨
         mapFind (processRowsArch [] rows) fc = some rec)
    (e : HistEntry) (he : rec.vr_history.head? = some e) :
    e.vrChange = jsSub e.totalVR e.totalVR ∧
    ∀ v : Int, e.totalVR = some v → e.vrChange = some 0 := by
  have hg : goodHist rec.vr_history := by
    rcases h with h | h
    · exact goodHist_of_mapFind (goodMap_processRowsLive rows goodMap_nil) h
    · exact goodHist_of_mapFind (goodMap_processRowsArch rows goodMap_nil) h
  have h0 := hg.1 e he
  refine ⟨h0, fun v hv => ?_⟩
  rw [h0, hv]
  simp [jsSub]

/-- Witness for C2: on `exRows` the live fold gives player `"A"` the first
entry `⟨"1", some 0, some 100⟩`, whose `vrChange` is `some 0`. -/
theorem C2_first_entry_zero_witness :
    mapFind (processRowsLive [] exRows) "A" = some exRecLive ∧
    exRecLive.vr_history.head? = some ⟨"1", some 0, some 100⟩ ∧
    (⟨"1", some 0, some 100⟩ : HistEntry).vrChange = some 0 :=
  ⟨by decide, by decide,
    (C2_first_entry_zero exRows "A" exRecLive (Or.inl (by decide))
      ⟨"1", some 0, some 100⟩ (by decide)).2 100 (by decide)⟩

/-- C6: for every player record produced by either reconstruction fold from
an empty base and every index `i > 0`, `vrChange[i]` is the `jsSub`
difference `totalVR[i] - totalVR[i-1]`. -/
theorem C6_vrChange_delta (rows : List (String × List RawPlayer)) (fc : String)
    (rec : PlayerRecord) (i : ℕ)
    (h : mapFind (processRowsLive [] rows) fc = some rec ∨
         mapFind (processRowsArch [] rows) fc = some rec)
    (hi : i + 1 < rec.vr_history.length) :
    (rec.vr_history.get ⟨i + 1, hi⟩).vrChange =
      jsSub (rec.vr_history.get ⟨i + 1, hi⟩).totalVR
        (rec.vr_history.get ⟨i, Nat.lt_of_succ_lt hi⟩).totalVR := by
  have hg : goodHist rec.vr_history := by
    rcases h with h | h
    · exact goodHist_of_mapFind (goodMap_processRowsLive rows goodMap_nil) h
    · exact goodHist_of_mapFind (goodMap_processRowsArch rows goodMap_nil) h
  have hc := hg.2
  rw [deltaChain, List.chain'_iff_get] at hc
  exact hc i (by omega)

/-- Witness for C6: on `exRows` the live fold gives player `"A"` the history
`[⟨"1", some 0, some 100⟩, ⟨"2", some 50, some 150⟩]` and at `i = 0` the
second entry's `vrChange` is `some (150 - 100)`. -/
theorem C6_vrChange_delta_witness :
    mapFind (processRowsLive [] exRows) "A" = some exRecLive ∧
    exRecLive.vr_history.length = 2 ∧
    (exRecLive.vr_history.get ⟨1, by decide⟩).vrChange =
      jsSub (exRecLive.vr_history.get ⟨1, by decide⟩).totalVR
        (exRecLive.vr_history.get ⟨0, by decide⟩).totalVR :=
  ⟨by decide, by decide,
    C6_vrChange_delta exRows "A" exRecLive 0 (Or.inl (by decide)) (by decide)⟩

/-- C4 counterexample: the claim says non-numeric input coerces to 0 and
that `ev` is always preferred over `vr`.  On the code, a truthy non-numeric
`ev` such as the string `"x"` makes `parseInt` return NaN (modelled `none`),
not 0; and a present-but-zero `ev` is falsy, so `vr = 50` wins. -/
theorem C4_counterexample :
    currentVRof (JSVal.str "x") JSVal.undef = none ∧ (none : Option Int) ≠ some 0 ∧
    currentVRof (JSVal.num 0) (JSVal.num 50) = some 50 ∧ (some 50 : Option Int) ≠ some 0 :=
  ⟨by decide, by decide, by decide, by decide⟩

/-- C4 (amended): `currentVR` is `parseInt` of the first truthy value among
`ev`, `vr`, `0`: `ev` when `ev` is truthy, else `vr` when `vr` is truthy,
else `0`; `parseInt` of a string with no leading integer is NaN (`none`),
not 0. -/
theorem C4_currentVR_selection (ev vr : JSVal) :
    (truthy ev = true → currentVRof ev vr = parseIntJS ev) ∧
    (truthy ev = false → truthy vr = true → currentVRof ev vr = parseIntJS vr) ∧
    (truthy ev = false → truthy vr = false → currentVRof ev vr = some 0) ∧
    parseIntStr "x" = none := by
  refine ⟨fun h => ?_, fun h1 h2 => ?_, fun h1 h2 => ?_, by decide⟩
  · simp [currentVRof, jsOr, h]
  · simp [currentVRof, jsOr, h1, h2]
  · simp [currentVRof, jsOr, h1, h2, parseIntJS]

/-- Witness for C4: at `ev = 5`, `vr = 7` the first branch applies and the
rating is 5. -/
theorem C4_currentVR_selection_witness :
    truthy (JSVal.num 5) = true ∧ currentVRof (JSVal.num 5) (JSVal.num 7) = some 5 :=
  ⟨by decide, (C4_currentVR_selection (JSVal.num 5) (JSVal.num 7)).1 (by decide)⟩

/-- C8: the discord merge leaves the stored value untouched when the cache
has no entry (defaulting an unset value to `"unknown"`); adopts
`"not_linked"` only over `"unknown"` or `"not_linked"` and otherwise leaves
the stored value unchanged; and always adopts a concrete profile id. -/
theorem C8_mergeDiscord (s c : String) :
    mergeDiscord none none = "unknown" ∧
    (s ≠ "" → mergeDiscord (some s) none = s) ∧
    mergeDiscord none (some "not_linked") = "not_linked" ∧
    mergeDiscord (some "unknown") (some "not_linked") = "not_linked" ∧
    mergeDiscord (some "not_linked") (some "not_linked") = "not_linked" ∧
    (s ≠ "" → s ≠ "unknown" → s ≠ "not_linked" → mergeDiscord (some s) (some "not_linked") = s) ∧
    (c ≠ "" → c ≠ "not_linked" → mergeDiscord none (some c) = c) ∧
    (c ≠ "" → c ≠ "not_linked" → mergeDiscord (some s) (some c) = c) := by
  refine ⟨by decide, fun h => ?_, by decide, by decide, by decide,
    fun h1 h2 h3 => ?_, fun h1 h2 => ?_, fun h1 h2 => ?_⟩
  · simp [mergeDiscord, h]
  · simp [mergeDiscord, h1, h2, h3]
  · simp [mergeDiscord, h1, h2]
  · simp [mergeDiscord, h1, h2]

/-- Witness for C8: a concrete profile id `"xyz"` in the cache overwrites a
previously linked value `"linked-abc"`. -/
theorem C8_mergeDiscord_witness :
    ("xyz" : String) ≠ "" ∧ ("xyz" : String) ≠ "not_linked" ∧
    mergeDiscord (some "linked-abc") (some "xyz") = "xyz" :=
  ⟨by decide, by decide,
    (C8_mergeDiscord "linked-abc" "xyz").2.2.2.2.2.2.2 (by decide) (by decide)⟩

/-- Concrete example player keyed `"a.b"` for the filename-collision claim. -/
def exPA : PlayerRecord := ⟨"Alice", "a.b", [⟨"0", some 5, some 5⟩], some "unknown", none⟩

/-- Concrete example player keyed `"a_b"` for the filename-collision claim. -/
def exPB : PlayerRecord := ⟨"Bob", "a_b", [⟨"0", some 7, some 7⟩], some "unknown", none⟩

/-- C9: the filesystem-safe transform is not injective — the distinct keys
`"a.b"` and `"a_b"` map to the same filename — and in one run the two
distinct records are written to the same file name, the later write (the
record of `"a_b"`) being what the file finally holds. -/
theorem C9_safeFC_collision :
    ("a.b" : String) ≠ "a_b" ∧ safeFC "a.b" = safeFC "a_b" ∧
    (runStats exParse exCache 0 [("a.b", exPA), ("a_b", exPB)]).2.map Prod.fst = ["a_b", "a_b"] ∧
    lastWrite (runStats exParse exCache 0 [("a.b", exPA), ("a_b", exPB)]).2 "a_b" =
      some (statsStep exParse exCache 0 "a_b" exPB).1 :=
  ⟨by decide, by decide, by decide, by decide⟩

/-- C10: when the archive directory exists, base data comes exclusively
from it: the loaded base map — and with it the whole run, including every
persisted record — is independent of whatever the players directory holds,
so previously persisted `vrStats` / `discord` values contribute nothing. -/
theorem C10_archive_exclusive (a p1 p2 : List PlayerRecord)
    (rows : List (String × List RawPlayer)) (parse : String → Int)
    (cache : String → Option String) (now : Int) :
    loadBase true a p1 = loadBase true a p2 ∧
    fullRunLive true a p1 rows parse cache now = fullRunLive true a p2 rows parse cache now :=
  ⟨rfl, rfl⟩

/-! ### Lemmas about the stats and pruning engine -/

theorem mem_insertByDate (parse : String → Int) (x y : HistEntry) (l : List HistEntry) :
    y ∈ insertByDate parse x l ↔ y = x ∨ y ∈ l := by
  induction l with
  | nil => simp [insertByDate]
  | cons a t ih =>
    unfold insertByDate
    split
    · simp [List.mem_cons]
    · simp only [List.mem_cons, ih]
      tauto

theorem mem_sortHist (parse : String → Int) (y : HistEntry) (l : List HistEntry) :
    y ∈ sortHist parse l ↔ y ∈ l := by
  induction l with
  | nil => simp [sortHist]
  | cons a t ih =>
    unfold sortHist
    rw [mem_insertByDate, ih, List.mem_cons]

theorem statsStep_hist (parse : String → Int) (cache : String → Option String)
    (now : Int) (fc : String) (data : PlayerRecord) :
    ((statsStep parse cache now fc data).1).vr_history = prunedHist parse now data.vr_history := by
  unfold statsStep
  split <;> rfl

theorem statsStep_empty (parse : String → Int) (cache : String → Option String)
    (now : Int) (fc : String) (data : PlayerRecord)
    (hempty : prunedHist parse now data.vr_history = []) :
    statsStep parse cache now fc data = ({ data with vr_history := [] }, none) := by
  unfold statsStep
  rw [hempty]
  rfl

theorem mapFind_runStats (parse : String → Int) (cache : String → Option String)
    (now : Int) (m : PlayerMap) (k : String) :
    mapFind (runStats parse cache now m).1 k =
      (mapFind m k).map (fun d => (statsStep parse cache now k d).1) := by
  induction m with
  | nil => rfl
  | cons kv rest ih =>
    show mapFind ((kv.1, (statsStep parse cache now kv.1 kv.2).1) ::
      (runStats parse cache now rest).1) k = _
    rw [mapFind_cons, mapFind_cons]
    by_cases h : kv.1 = k
    · rw [if_pos h, if_pos h, h]
      rfl
    · rw [if_neg h, if_neg h, ih]

theorem runStats_writes (parse : String → Int) (cache : String → Option String)
    (now : Int) (m : PlayerMap) :
    (runStats parse cache now m).2 =
      m.filterMap (fun kv => (statsStep parse cache now kv.1 kv.2).2) := rfl

/-- Modelled from the spec's words (§4.4, steps 2 and 4): the window
statistic over an already pruned history — latest total minus the total of
the first entry whose date is at or after `now - w`, falling back to the
oldest retained entry when no such entry exists. -/
def specWindowStat (parse : String → Int) (now : Int) (hist : List HistEntry) (w : Int) :
    Option Int :=
  jsSub (hist.getLastD dummyEntry).totalVR
    (match hist.find? (fun h => now - w ≤ parse h.date) with
     | some e => e.totalVR
     | none => (hist.headD dummyEntry).totalVR)

/-! ### Claims about the stats and pruning engine -/

/-- C7: one run of the finalize loop keeps exactly the (re-sorted) history
entries whose age `now - parse date` is at most 30 days: an entry of age
exactly 30 days satisfies `≤` and is retained, any strictly older entry
fails it and is dropped — re-evaluated against the `now` of each run, since
`now` is an argument of every run. -/
theorem C7_prune_retention (parse : String → Int) (cache : String → Option String)
    (now : Int) (fc : String) (data : PlayerRecord) (x : HistEntry) :
    x ∈ (statsStep parse cache now fc data).1.vr_history ↔
      x ∈ data.vr_history ∧ now - parse x.date ≤ thirtyDays := by
  rw [statsStep_hist]
  unfold prunedHist
  rw [List.mem_filter, mem_sortHist]
  simp

/-- C5: for a player whose pruned history is nonempty, each of the three
window statistics equals the spec's selection rule applied to the pruned
history: latest `totalVR` minus the `totalVR` of the first entry dated at or
after `now - w`, falling back to the oldest retained entry. -/
theorem C5_window_stats (parse : String → Int) (cache : String → Option String)
    (now : Int) (fc : String) (data : PlayerRecord)
    (hne : prunedHist parse now data.vr_history ≠ []) :
    (statsStep parse cache now fc data).1.vrStats =
      some
        ⟨specWindowStat parse now (prunedHist parse now data.vr_history) oneDay,
         specWindowStat parse now (prunedHist parse now data.vr_history) sevenDays,
         specWindowStat parse now (prunedHist parse now data.vr_history) thirtyDays⟩ := by
  unfold statsStep
  rw [if_neg (by simpa [List.isEmpty_iff] using hne)]
  rfl

/-- Witness for C5 — the spec's literal scenario: history totals
`[0, 50, 120]` at days `[-10, -5, 0]` relative to `now = 0`, nothing
pruned; `last24Hours = 120 - 120 = 0`, `lastWeek = 70`, `lastMonth = 120`. -/
theorem C5_window_stats_witness :
    prunedHist exParse 0 exC5.vr_history ≠ [] ∧
    (statsStep exParse exCache 0 "C" exC5).1.vrStats =
      some ⟨some 0, some 70, some 120⟩ := by
  refine ⟨by decide, ?_⟩
  rw [C5_window_stats exParse exCache 0 "C" exC5 (by decide)]
  decide

/-- C3 counterexample: a player whose only entry is older than 30 days
remains in the merged mapping after the run, yet the run emits no write at
all — so not every `PlayerRecord` in the merged mapping is persisted. -/
theorem C3_counterexample :
    mapFind (runStats exParse exCache (thirtyDays + 1) [("O", exOld)]).1 "O" =
      some ⟨"Old", "O", [], some "unknown", none⟩ ∧
    (runStats exParse exCache (thirtyDays + 1) [("O", exOld)]).2 = [] :=
  ⟨by decide, by decide⟩

/-- C3 (amended): a player whose history is empty after pruning is skipped
by stats computation and retained in the merged mapping rather than
deleted — but it is NOT persisted that run: its `statsStep` emits no write,
so only players with non-empty pruned history are written. -/
theorem C3_empty_retained_not_persisted (parse : String → Int)
    (cache : String → Option String) (now : Int) (m : PlayerMap)
    (fc : String) (data : PlayerRecord)
    (hfind : mapFind m fc = some data)
    (hempty : prunedHist parse now data.vr_history = []) :
    statsStep parse cache now fc data = ({ data with vr_history := [] }, none) ∧
    mapFind (runStats parse cache now m).1 fc = some { data with vr_history := [] } := by
  have h1 := statsStep_empty parse cache now fc data hempty
  refine ⟨h1, ?_⟩
  rw [mapFind_runStats, hfind]
  simp [h1]

/-- Witness for C3: the player `"O"` of `C3_counterexample`'s input. -/
theorem C3_empty_retained_witness :
    mapFind [("O", exOld)] "O" = some exOld ∧
    prunedHist exParse (thirtyDays + 1) exOld.vr_history = [] ∧
    mapFind (runStats exParse exCache (thirtyDays + 1) [("O", exOld)]).1 "O" =
      some { exOld with vr_history := [] } :=
  ⟨by decide, by decide,
    (C3_empty_retained_not_persisted exParse exCache (thirtyDays + 1) [("O", exOld)]
      "O" exOld (by decide) (by decide)).2⟩

end RRData
